import Mathlib

/-!
Shallow embedding of the `MLEngine` class from `src/services/mlEngine.ts`.

The engine is purely numeric (means, population standard deviations,
sigmoid, Euclidean distances), so the JavaScript `number` arithmetic is
modelled over `ℝ`.  JavaScript's `Array.prototype.sort` with the
comparator `(a, b) => a.dist - b.dist` is a stable ascending sort by the
`dist` field; since the comparator reads only the distance key, sorting
the `{dist, purchased}` entries is the same as sorting the underlying
records by their distance key, which we model with Mathlib's stable
`List.insertionSort` on the records.  The truthiness fallback
`stdAge || 1` is modelled as substituting `1` when the computed standard
deviation is `0`.
-/

noncomputable section

open Real

/-- A training record, `CustomerData` from `src/types.ts`:
age, estimated salary, and the 0/1 purchase label. -/
structure CustomerData where
  Age : ℝ
  EstimatedSalary : ℝ
  Purchased : ℝ

/-- `ScaleParams` from `src/types.ts`: per-feature mean and standard
deviation, each as an (age, salary) pair. -/
structure ScaleParams where
  mean : ℝ × ℝ
  std : ℝ × ℝ

/-- `MLEngine.calculateScaling`: population mean and standard deviation of
each feature over the training data, with a zero standard deviation
replaced by `1` (the `stdAge || 1` fallback in the source). -/
def calculateScaling (data : List CustomerData) : ScaleParams :=
  let ages := data.map (·.Age)
  let salaries := data.map (·.EstimatedSalary)
  let meanAge := ages.sum / ages.length
  let meanSalary := salaries.sum / salaries.length
  let stdAge := Real.sqrt ((ages.map (fun x => (x - meanAge) ^ 2)).sum / ages.length)
  let stdSalary :=
    Real.sqrt ((salaries.map (fun x => (x - meanSalary) ^ 2)).sum / salaries.length)
  { mean := (meanAge, meanSalary)
    std := (if stdAge = 0 then 1 else stdAge, if stdSalary = 0 then 1 else stdSalary) }

/-- `MLEngine.scale`: standardize a raw (age, salary) pair with the stored
scaling parameters. -/
def scale (p : ScaleParams) (age salary : ℝ) : ℝ × ℝ :=
  ((age - p.mean.1) / p.std.1, (salary - p.mean.2) / p.std.2)

/-- The standardized copy of the training data built at the start of
`MLEngine.trainLogisticRegression`: each record becomes the triple
`(scaled age, scaled salary, label)`. -/
def scaledData (p : ScaleParams) (data : List CustomerData) : List (ℝ × ℝ × ℝ) :=
  data.map fun d =>
    ((scale p d.Age d.EstimatedSalary).1, (scale p d.Age d.EstimatedSalary).2, d.Purchased)

/-- The logistic link `1 / (1 + e^(-z))` used throughout the source. -/
def sigmoid (z : ℝ) : ℝ := 1 / (1 + Real.exp (-z))

/-- One iteration of the gradient-descent loop in
`MLEngine.trainLogisticRegression`: accumulate `diff·x1`, `diff·x2`,
`diff` over the standardized records into `(dw1, dw2, db)`, then update
each parameter by `-(learningRate / m) · dw` with `learningRate = 0.1`.
The state is the triple `(w1, w2, b)`. -/
def gdStep (m : ℕ) (sd : List (ℝ × ℝ × ℝ)) (w : ℝ × ℝ × ℝ) : ℝ × ℝ × ℝ :=
  let g := sd.foldl
    (fun acc d =>
      let z := w.1 * d.1 + w.2.1 * d.2.1 + w.2.2
      let p := 1 / (1 + Real.exp (-z))
      let diff := p - d.2.2
      (acc.1 + diff * d.1, acc.2.1 + diff * d.2.1, acc.2.2 + diff))
    (0, 0, 0)
  (w.1 - (0.1 / m) * g.1, w.2.1 - (0.1 / m) * g.2.1, w.2.2 - (0.1 / m) * g.2.2)

/-- `MLEngine.trainLogisticRegression`: 1000 gradient-descent iterations
starting from `w1 = w2 = b = 0`. -/
def trainLogisticRegression (data : List CustomerData) (p : ScaleParams) : ℝ × ℝ × ℝ :=
  (gdStep data.length (scaledData p data))^[1000] (0, 0, 0)

/-- The `MLEngine` object state after the constructor has run: the
training data, the scaling parameters, and the fitted logistic model. -/
structure MLEngine where
  trainingData : List CustomerData
  scaleParams : ScaleParams
  lrWeights : ℝ × ℝ
  lrBias : ℝ

/-- The `MLEngine` constructor: store the data, compute the scaling
parameters, and train the logistic regression.  The source constructor
contains no `throw`; it is a total function of the input list. -/
def mkEngine (data : List CustomerData) : MLEngine :=
  let p := calculateScaling data
  let lr := trainLogisticRegression data p
  { trainingData := data, scaleParams := p, lrWeights := (lr.1, lr.2.1), lrBias := lr.2.2 }

/-- A prediction result: the boolean decision and the probability. -/
structure Prediction where
  purchased : Bool
  probability : ℝ

/-- `MLEngine.predictLogisticRegression`: standardize the query, score it
with the stored weights, and threshold the sigmoid probability at `0.5`. -/
def predictLogisticRegression (e : MLEngine) (age salary : ℝ) : Prediction :=
  let s := scale e.scaleParams age salary
  let z := e.lrWeights.1 * s.1 + e.lrWeights.2 * s.2 + e.lrBias
  let prob := 1 / (1 + Real.exp (-z))
  { purchased := decide (prob ≥ 0.5), probability := prob }

/-- The Euclidean distance, in standardized feature space, from the query
point to a training record — the `dist` field computed inside
`MLEngine.predictKNN`. -/
def distTo (e : MLEngine) (age salary : ℝ) (d : CustomerData) : ℝ :=
  let s := scale e.scaleParams age salary
  let ds := scale e.scaleParams d.Age d.EstimatedSalary
  Real.sqrt ((s.1 - ds.1) ^ 2 + (s.2 - ds.2) ^ 2)

/-- The training records sorted ascending by distance to the query, ties
kept in original input order — the stable `distances.sort((a, b) =>
a.dist - b.dist)` of the source, modelled by the stable
`List.insertionSort`. -/
def neighborList (e : MLEngine) (age salary : ℝ) : List CustomerData :=
  List.insertionSort (fun a b => distTo e age salary a ≤ distTo e age salary b) e.trainingData

/-- `purchasedCount` in `MLEngine.predictKNN`: among the first `k` sorted
records, the number whose label equals `1`. -/
def purchasedCount (e : MLEngine) (age salary : ℝ) (k : ℕ) : ℕ :=
  (((neighborList e age salary).take k).filter fun d => decide (d.Purchased = 1)).length

/-- `MLEngine.predictKNN`: majority vote with strict threshold `k / 2`
among the `k` nearest neighbors, probability `purchasedCount / k`. -/
def predictKNN (e : MLEngine) (age salary : ℝ) (k : ℕ) : Prediction :=
  { purchased := decide ((purchasedCount e age salary k : ℝ) > (k : ℝ) / 2)
    probability := (purchasedCount e age salary k : ℝ) / (k : ℝ) }

/-- The two algorithm names accepted by `MLEngine.getAccuracy`
(`'LR' | 'KNN'` in the source, `logistic-regression` / `knn` in the
external interface description). -/
inductive Algorithm where
  | LR : Algorithm
  | KNN : Algorithm

/-- The predicted 0/1 label for a training record: the algorithm's
boolean prediction, queried at the record's raw feature values, coerced
with `pred ? 1 : 0` as in `MLEngine.getAccuracy`.  KNN is always queried
with the default `k = 5`. -/
def predLabel (e : MLEngine) (alg : Algorithm) (d : CustomerData) : ℝ :=
  let pred :=
    match alg with
    | Algorithm.LR => (predictLogisticRegression e d.Age d.EstimatedSalary).purchased
    | Algorithm.KNN => (predictKNN e d.Age d.EstimatedSalary 5).purchased
  if pred then 1 else 0

/-- `MLEngine.getAccuracy`: the fraction of training records whose
predicted label matches the true label. -/
def getAccuracy (e : MLEngine) (alg : Algorithm) : ℝ :=
  ((e.trainingData.filter fun d => decide (predLabel e alg d = d.Purchased)).length : ℝ) /
    (e.trainingData.length : ℝ)

/-- The constructor viewed as a fallible operation.  The source
constructor contains no `throw` of any kind, so it always succeeds. -/
def constructViaCode (data : List CustomerData) : Option MLEngine :=
  some (mkEngine data)

/-- The constructor as the specification describes it: it fails (raises
`InvalidTrainingSet`) exactly when the input sequence is empty, and
succeeds on every non-empty input. -/
def constructViaSpec (data : List CustomerData) : Option MLEngine :=
  match data with
  | [] => none
  | _ :: _ => some (mkEngine data)

/-- The training-set accuracy of the KNN predictor when every record is
queried with neighbor count `k` — `MLEngine.getAccuracy` generalized over
the `k` that its call to `predictKNN` uses. -/
def knnAccuracyAt (e : MLEngine) (k : ℕ) : ℝ :=
  ((e.trainingData.filter fun d =>
      decide ((if (predictKNN e d.Age d.EstimatedSalary k).purchased then (1 : ℝ) else 0)
        = d.Purchased)).length : ℝ) / (e.trainingData.length : ℝ)

/-- A two-record training set used to instantiate universally quantified
results on a concrete input. -/
def dataOneTwo : List CustomerData :=
  [⟨5, 1, 0⟩, ⟨5, 2, 1⟩]

/-- C1 counterexample: the claim says construction fails on the empty
sequence, but the constructor in the source has no failure path at all —
on `[]` it completes and returns an engine, while the specification's
description of `construct` demands failure there. -/
theorem C1_counterexample :
    constructViaCode [] = some (mkEngine []) ∧ constructViaSpec [] = none :=
  ⟨rfl, rfl⟩

/-- C1 (amended): construction never fails.  For every input sequence,
including the empty one, the constructor completes and returns an engine
whose stored training data is the input; no `InvalidTrainingSet` error
exists in the code. -/
theorem C1_amended (data : List CustomerData) :
    ∃ e : MLEngine, constructViaCode data = some e ∧ e.trainingData = data :=
  ⟨mkEngine data, rfl, rfl⟩

/-- C4: `predictLogisticRegression` standardizes the query with the stored
scaling parameters, scores it as `z = w1·x1 + w2·x2 + b`, returns
`probability = sigmoid z ∈ [0, 1]`, and `purchased` holds exactly when the
probability is at least `0.5`. -/
theorem C4_predictLR_spec (e : MLEngine) (age salary : ℝ) :
    (predictLogisticRegression e age salary).probability
      = sigmoid (e.lrWeights.1 * (scale e.scaleParams age salary).1
          + e.lrWeights.2 * (scale e.scaleParams age salary).2 + e.lrBias)
    ∧ 0 ≤ (predictLogisticRegression e age salary).probability
    ∧ (predictLogisticRegression e age salary).probability ≤ 1
    ∧ ((predictLogisticRegression e age salary).purchased = true
        ↔ (predictLogisticRegression e age salary).probability ≥ 0.5) := by
  have hz : (0 : ℝ) < 1 + Real.exp (-(e.lrWeights.1 * (scale e.scaleParams age salary).1
      + e.lrWeights.2 * (scale e.scaleParams age salary).2 + e.lrBias)) := by
    have := Real.exp_pos (-(e.lrWeights.1 * (scale e.scaleParams age salary).1
      + e.lrWeights.2 * (scale e.scaleParams age salary).2 + e.lrBias))
    linarith
  have hexp : (0 : ℝ) ≤ Real.exp (-(e.lrWeights.1 * (scale e.scaleParams age salary).1
      + e.lrWeights.2 * (scale e.scaleParams age salary).2 + e.lrBias)) :=
    (Real.exp_pos _).le
  refine ⟨rfl, ?_, ?_, ?_⟩
  · exact le_of_lt (div_pos one_pos hz)
  · exact (div_le_one hz).mpr (by linarith)
  · simp [predictLogisticRegression, decide_eq_true_eq]

/-- C5: for every engine with a non-empty training set, `getAccuracy`
equals the fraction of training records whose predicted label (from the
record's own raw features) matches its true label, and that fraction lies
in `[0, 1]`. -/
theorem C5_accuracy_fraction (e : MLEngine) (h : e.trainingData ≠ []) (alg : Algorithm) :
    getAccuracy e alg
      = ((e.trainingData.filter fun d =>
          decide (predLabel e alg d = d.Purchased)).length : ℝ)
        / (e.trainingData.length : ℝ)
    ∧ 0 ≤ getAccuracy e alg ∧ getAccuracy e alg ≤ 1 := by
  have hn : 0 < (e.trainingData.length : ℝ) := by
    exact_mod_cast List.length_pos.mpr h
  have hle : ((e.trainingData.filter fun d =>
      decide (predLabel e alg d = d.Purchased)).length : ℝ) ≤ (e.trainingData.length : ℝ) := by
    exact_mod_cast List.length_filter_le _ _
  refine ⟨rfl, ?_, ?_⟩
  · exact div_nonneg (by positivity) hn.le
  · exact (div_le_one hn).mpr hle

/-- C5 witness: the accuracy fraction result instantiated on a concrete
two-record training set. -/
theorem C5_witness :
    (mkEngine dataOneTwo).trainingData ≠ [] ∧
    (getAccuracy (mkEngine dataOneTwo) Algorithm.LR
      = (((mkEngine dataOneTwo).trainingData.filter fun d =>
          decide (predLabel (mkEngine dataOneTwo) Algorithm.LR d = d.Purchased)).length : ℝ)
        / ((mkEngine dataOneTwo).trainingData.length : ℝ)
    ∧ 0 ≤ getAccuracy (mkEngine dataOneTwo) Algorithm.LR
    ∧ getAccuracy (mkEngine dataOneTwo) Algorithm.LR ≤ 1) :=
  ⟨by simp [mkEngine, dataOneTwo],
   C5_accuracy_fraction (mkEngine dataOneTwo) (by simp [mkEngine, dataOneTwo]) Algorithm.LR⟩

/-- The mean of a non-empty constant list is the constant. -/
lemma sum_div_length_const (l : List ℝ) (a : ℝ) (h : ∀ x ∈ l, x = a) (hne : l ≠ []) :
    l.sum / (l.length : ℝ) = a := by
  have hrep : l = List.replicate l.length a := List.eq_replicate_of_mem h
  have hn : (l.length : ℝ) ≠ 0 := by
    exact_mod_cast (List.length_pos.mpr hne).ne'
  calc l.sum / (l.length : ℝ)
      = (List.replicate l.length a).sum / (l.length : ℝ) := by rw [← hrep]
    _ = ((l.length : ℝ) * a) / (l.length : ℝ) := by rw [List.sum_replicate, nsmul_eq_mul]
    _ = a := mul_div_cancel_left₀ a hn

/-- When feature 1 is constant over the training set, its computed raw
standard deviation is `0`, so `calculateScaling` substitutes `1`, and the
computed mean is the constant. -/
lemma calculateScaling_const_age (data : List CustomerData) (a0 : ℝ) (h : data ≠ [])
    (hconst : ∀ d ∈ data, d.Age = a0) :
    (calculateScaling data).std.1 = 1 ∧ (calculateScaling data).mean.1 = a0 := by
  have hne : data.map (·.Age) ≠ [] := by
    simpa using h
  have hmemAge : ∀ x ∈ data.map (·.Age), x = a0 := by
    intro x hx
    rcases List.mem_map.mp hx with ⟨d, hd, rfl⟩
    exact hconst d hd
  have hmean : (data.map (·.Age)).sum / ((data.map (·.Age)).length : ℝ) = a0 :=
    sum_div_length_const _ _ hmemAge hne
  have hvar : ((data.map (·.Age)).map
      (fun x => (x - (data.map (·.Age)).sum / ((data.map (·.Age)).length : ℝ)) ^ 2)).sum
        = 0 := by
    apply List.sum_eq_zero
    intro y hy
    rcases List.mem_map.mp hy with ⟨x, hx, rfl⟩
    rw [hmemAge x hx, hmean]
    ring
  constructor
  · simp only [calculateScaling, hvar]
    simp
  · simpa only [calculateScaling] using hmean

/-- When feature 2 is constant over the training set, its computed raw
standard deviation is `0`, so `calculateScaling` substitutes `1`, and the
computed mean is the constant. -/
lemma calculateScaling_const_salary (data : List CustomerData) (s0 : ℝ) (h : data ≠ [])
    (hconst : ∀ d ∈ data, d.EstimatedSalary = s0) :
    (calculateScaling data).std.2 = 1 ∧ (calculateScaling data).mean.2 = s0 := by
  have hne : data.map (·.EstimatedSalary) ≠ [] := by
    simpa using h
  have hmemSal : ∀ x ∈ data.map (·.EstimatedSalary), x = s0 := by
    intro x hx
    rcases List.mem_map.mp hx with ⟨d, hd, rfl⟩
    exact hconst d hd
  have hmean : (data.map (·.EstimatedSalary)).sum
      / ((data.map (·.EstimatedSalary)).length : ℝ) = s0 :=
    sum_div_length_const _ _ hmemSal hne
  have hvar : ((data.map (·.EstimatedSalary)).map
      (fun x => (x - (data.map (·.EstimatedSalary)).sum
        / ((data.map (·.EstimatedSalary)).length : ℝ)) ^ 2)).sum = 0 := by
    apply List.sum_eq_zero
    intro y hy
    rcases List.mem_map.mp hy with ⟨x, hx, rfl⟩
    rw [hmemSal x hx, hmean]
    ring
  constructor
  · simp only [calculateScaling, hvar]
    simp
  · simpa only [calculateScaling] using hmean

/-- C6: for a non-empty training set in which either feature is constant,
construction substitutes `1` for that feature's zero standard deviation
(so it does not fail), and standardization of that feature is plain
centering `(value - mean) / 1`. -/
theorem C6_constant_feature (data : List CustomerData) (c0 : ℝ) (h : data ≠ []) :
    ((∀ d ∈ data, d.Age = c0) →
      (calculateScaling data).std.1 = 1
      ∧ (calculateScaling data).mean.1 = c0
      ∧ ∀ v salary : ℝ,
          (scale (calculateScaling data) v salary).1
            = v - (calculateScaling data).mean.1)
    ∧ ((∀ d ∈ data, d.EstimatedSalary = c0) →
      (calculateScaling data).std.2 = 1
      ∧ (calculateScaling data).mean.2 = c0
      ∧ ∀ age v : ℝ,
          (scale (calculateScaling data) age v).2
            = v - (calculateScaling data).mean.2) := by
  constructor
  · intro hconst
    obtain ⟨hstd, hmean⟩ := calculateScaling_const_age data c0 h hconst
    refine ⟨hstd, hmean, fun v salary => ?_⟩
    simp [scale, hstd]
  · intro hconst
    obtain ⟨hstd, hmean⟩ := calculateScaling_const_salary data c0 h hconst
    refine ⟨hstd, hmean, fun age v => ?_⟩
    simp [scale, hstd]

/-- A two-record training set with a constant feature-2 (salary) value. -/
def dataSalConst : List CustomerData :=
  [⟨1, 7, 0⟩, ⟨2, 7, 1⟩]

/-- C6 witness: the constant-feature result instantiated on a concrete
training set with constant feature 1 and on a concrete training set with
constant feature 2. -/
theorem C6_witness :
    (dataOneTwo ≠ [] ∧ (∀ d ∈ dataOneTwo, d.Age = 5)
    ∧ (calculateScaling dataOneTwo).std.1 = 1
    ∧ (calculateScaling dataOneTwo).mean.1 = 5
    ∧ ∀ v salary : ℝ,
        (scale (calculateScaling dataOneTwo) v salary).1
          = v - (calculateScaling dataOneTwo).mean.1)
    ∧ (dataSalConst ≠ [] ∧ (∀ d ∈ dataSalConst, d.EstimatedSalary = 7)
    ∧ (calculateScaling dataSalConst).std.2 = 1
    ∧ (calculateScaling dataSalConst).mean.2 = 7
    ∧ ∀ age v : ℝ,
        (scale (calculateScaling dataSalConst) age v).2
          = v - (calculateScaling dataSalConst).mean.2) := by
  have hne1 : dataOneTwo ≠ [] := by simp [dataOneTwo]
  have hage : ∀ d ∈ dataOneTwo, d.Age = 5 := by
    intro d hd
    simp only [dataOneTwo, List.mem_cons, List.mem_singleton] at hd
    rcases hd with rfl | rfl | hd
    · rfl
    · rfl
    · simp at hd
  have hne2 : dataSalConst ≠ [] := by simp [dataSalConst]
  have hsal : ∀ d ∈ dataSalConst, d.EstimatedSalary = 7 := by
    intro d hd
    simp only [dataSalConst, List.mem_cons, List.mem_singleton] at hd
    rcases hd with rfl | rfl | hd
    · rfl
    · rfl
    · simp at hd
  obtain ⟨h1, h2, h3⟩ := (C6_constant_feature dataOneTwo 5 hne1).1 hage
  obtain ⟨h4, h5, h6⟩ := (C6_constant_feature dataSalConst 7 hne2).2 hsal
  exact ⟨⟨hne1, hage, h1, h2, h3⟩, ⟨hne2, hsal, h4, h5, h6⟩⟩

/-- The two-record training set of the spec's concrete KNN scenario. -/
def dataKNN : List CustomerData :=
  [⟨20, 20000, 0⟩, ⟨60, 140000, 1⟩]

/-- The engine of the spec's concrete KNN scenario. -/
def engKNN : MLEngine :=
  mkEngine dataKNN

/-- The scaling parameters of the concrete KNN scenario: means
`(40, 80000)` and standard deviations `(20, 60000)`. -/
lemma engKNN_scaleParams : engKNN.scaleParams = ⟨(40, 80000), (20, 60000)⟩ := by
  have h400 : Real.sqrt 400 = 20 := by
    rw [show (400 : ℝ) = 20 ^ 2 by norm_num, Real.sqrt_sq (by norm_num : (0 : ℝ) ≤ 20)]
  have h36 : Real.sqrt 3600000000 = 60000 := by
    rw [show (3600000000 : ℝ) = 60000 ^ 2 by norm_num,
      Real.sqrt_sq (by norm_num : (0 : ℝ) ≤ 60000)]
  show calculateScaling dataKNN = _
  simp only [calculateScaling, dataKNN]
  norm_num
  rw [h400, h36]
  norm_num

/-- Both records of the concrete KNN scenario lie at standardized distance
`√2` from the query `(40, 80000)`. -/
lemma engKNN_dists :
    distTo engKNN 40 80000 ⟨20, 20000, 0⟩ = Real.sqrt 2
    ∧ distTo engKNN 40 80000 ⟨60, 140000, 1⟩ = Real.sqrt 2 := by
  constructor <;>
  · simp only [distTo, scale, engKNN_scaleParams]
    norm_num

/-- In the concrete KNN scenario the sorted neighbor list keeps the
original input order (the two distances tie). -/
lemma engKNN_neighborList : neighborList engKNN 40 80000 = dataKNN := by
  obtain ⟨h1, h2⟩ := engKNN_dists
  show List.insertionSort _ engKNN.trainingData = _
  have htd : engKNN.trainingData = dataKNN := rfl
  rw [htd]
  simp only [dataKNN, List.insertionSort, List.orderedInsert, h1, h2, le_refl, if_pos]

/-- In the concrete KNN scenario with `k = 2`, exactly one of the two
neighbors has label `1`. -/
lemma engKNN_purchasedCount : purchasedCount engKNN 40 80000 2 = 1 := by
  simp only [purchasedCount, engKNN_neighborList, dataKNN]
  norm_num

/-- C2: `predictKNN` sorts the training records ascending by standardized
Euclidean distance (a permutation of the training set, ties in input
order via the stable sort), takes the first `k`, and returns
`probability = purchasedCount / k` with `purchased ⟺ purchasedCount >
k/2` (strict); an exact tie yields `purchased = false`; and on the
spec's concrete scenario the result is probability `1/2`, not purchased. -/
theorem C2_predictKNN_spec (e : MLEngine) (age salary : ℝ) (k : ℕ) (_hk : 0 < k) :
    (neighborList e age salary).Perm e.trainingData
    ∧ (neighborList e age salary).Sorted
        (fun a b => distTo e age salary a ≤ distTo e age salary b)
    ∧ (predictKNN e age salary k).probability
        = (purchasedCount e age salary k : ℝ) / (k : ℝ)
    ∧ ((predictKNN e age salary k).purchased = true
        ↔ (purchasedCount e age salary k : ℝ) > (k : ℝ) / 2)
    ∧ (2 * purchasedCount e age salary k = k → (predictKNN e age salary k).purchased = false)
    ∧ (predictKNN engKNN 40 80000 2).probability = 1 / 2
    ∧ (predictKNN engKNN 40 80000 2).purchased = false := by
  refine ⟨List.perm_insertionSort _ _, ?_, rfl, ?_, ?_, ?_, ?_⟩
  · haveI : IsTotal CustomerData
        (fun a b => distTo e age salary a ≤ distTo e age salary b) :=
      ⟨fun a b => le_total _ _⟩
    haveI : IsTrans CustomerData
        (fun a b => distTo e age salary a ≤ distTo e age salary b) :=
      ⟨fun _ _ _ hab hbc => le_trans hab hbc⟩
    exact List.sorted_insertionSort _ _
  · simp [predictKNN, decide_eq_true_eq]
  · intro htie
    have hhalf : ((k : ℝ) / 2) = (purchasedCount e age salary k : ℝ) := by
      have : (k : ℝ) = 2 * (purchasedCount e age salary k : ℝ) := by
        exact_mod_cast congrArg (Nat.cast : ℕ → ℝ) htie.symm
      linarith
    simp only [predictKNN, hhalf]
    simp
  · show (purchasedCount engKNN 40 80000 2 : ℝ) / (2 : ℕ) = 1 / 2
    rw [engKNN_purchasedCount]
    norm_num
  · show decide ((purchasedCount engKNN 40 80000 2 : ℝ) > ((2 : ℕ) : ℝ) / 2) = false
    rw [engKNN_purchasedCount]
    norm_num

/-- C2 witness: the KNN result instantiated on the spec's concrete
scenario (`k = 2`). -/
theorem C2_witness :
    0 < 2
    ∧ ((predictKNN engKNN 40 80000 2).probability
        = (purchasedCount engKNN 40 80000 2 : ℝ) / ((2 : ℕ) : ℝ)
      ∧ (predictKNN engKNN 40 80000 2).probability = 1 / 2
      ∧ (predictKNN engKNN 40 80000 2).purchased = false) :=
  ⟨by norm_num,
   (C2_predictKNN_spec engKNN 40 80000 2 (by norm_num)).2.2.1,
   (C2_predictKNN_spec engKNN 40 80000 2 (by norm_num)).2.2.2.2.2.1,
   (C2_predictKNN_spec engKNN 40 80000 2 (by norm_num)).2.2.2.2.2.2⟩

/-- C9: when `k` exceeds the training-set size `n`, `predictKNN` uses all
`n` records as neighbors and does not fail, but the probability
denominator stays `k` and the majority threshold stays `k/2`: the
probability is strictly below `1`, and whenever `n ≤ k/2` the prediction
is `false` no matter the labels. -/
theorem C9_knn_k_exceeds_n (e : MLEngine) (age salary : ℝ) (k : ℕ)
    (hk : e.trainingData.length < k) :
    (neighborList e age salary).take k = neighborList e age salary
    ∧ ((neighborList e age salary).take k).length = e.trainingData.length
    ∧ (predictKNN e age salary k).probability
        = (purchasedCount e age salary k : ℝ) / (k : ℝ)
    ∧ (predictKNN e age salary k).probability < 1
    ∧ ((e.trainingData.length : ℝ) ≤ (k : ℝ) / 2
        → (predictKNN e age salary k).purchased = false) := by
  have hlen : (neighborList e age salary).length = e.trainingData.length :=
    (List.perm_insertionSort _ _).length_eq
  have htake : (neighborList e age salary).take k = neighborList e age salary :=
    List.take_of_length_le (by omega)
  have hpc : purchasedCount e age salary k ≤ e.trainingData.length := by
    calc purchasedCount e age salary k
        ≤ ((neighborList e age salary).take k).length := List.length_filter_le _ _
      _ = e.trainingData.length := by rw [htake, hlen]
  have hkpos : (0 : ℝ) < (k : ℝ) := by
    have : 0 < k := Nat.lt_of_le_of_lt (Nat.zero_le _) hk
    exact_mod_cast this
  have hpcR : (purchasedCount e age salary k : ℝ) ≤ (e.trainingData.length : ℝ) := by
    exact_mod_cast hpc
  have hnk : (e.trainingData.length : ℝ) < (k : ℝ) := by
    exact_mod_cast hk
  refine ⟨htake, by rw [htake, hlen], rfl, ?_, ?_⟩
  · show (purchasedCount e age salary k : ℝ) / (k : ℝ) < 1
    exact (div_lt_one hkpos).mpr (lt_of_le_of_lt hpcR hnk)
  · intro hhalf
    show decide ((purchasedCount e age salary k : ℝ) > (k : ℝ) / 2) = false
    apply decide_eq_false_iff_not.mpr
    push_neg
    linarith

/-- C9 witness: with two training records and the default `k = 5`, all
records are neighbors, the probability stays below `1`, and since
`2 ≤ 5/2` the prediction is `false` even though a record has label `1`. -/
theorem C9_witness :
    (mkEngine dataOneTwo).trainingData.length < 5
    ∧ (neighborList (mkEngine dataOneTwo) 0 0).take 5 = neighborList (mkEngine dataOneTwo) 0 0
    ∧ (predictKNN (mkEngine dataOneTwo) 0 0 5).probability < 1
    ∧ (predictKNN (mkEngine dataOneTwo) 0 0 5).purchased = false := by
  have hlen : (mkEngine dataOneTwo).trainingData.length < 5 := by
    show dataOneTwo.length < 5
    simp [dataOneTwo]
  have h := C9_knn_k_exceeds_n (mkEngine dataOneTwo) 0 0 5 hlen
  exact ⟨hlen, h.1, h.2.2.2.1, h.2.2.2.2 (by
    show ((mkEngine dataOneTwo).trainingData.length : ℝ) ≤ (5 : ℕ) / 2
    show ((dataOneTwo.length : ℕ) : ℝ) ≤ (5 : ℕ) / 2
    norm_num [dataOneTwo])⟩

/-- One gradient-descent iteration as the specification words it: sum the
contributions `diff·x1`, `diff·x2`, `diff` over every standardized
record, divide each sum by the dataset size `m`, and subtract `η = 0.1`
times the average from the corresponding parameter. -/
def gdStepSpec (m : ℕ) (sd : List (ℝ × ℝ × ℝ)) (w : ℝ × ℝ × ℝ) : ℝ × ℝ × ℝ :=
  let dw1 := (sd.map fun d => (sigmoid (w.1 * d.1 + w.2.1 * d.2.1 + w.2.2) - d.2.2) * d.1).sum
  let dw2 :=
    (sd.map fun d => (sigmoid (w.1 * d.1 + w.2.1 * d.2.1 + w.2.2) - d.2.2) * d.2.1).sum
  let db := (sd.map fun d => sigmoid (w.1 * d.1 + w.2.1 * d.2.1 + w.2.2) - d.2.2).sum
  (w.1 - 0.1 * (dw1 / m), w.2.1 - 0.1 * (dw2 / m), w.2.2 - 0.1 * (db / m))

/-- A left fold that accumulates three sums componentwise equals the
triple of mapped sums. -/
lemma foldl_triple_sum (f1 f2 f3 : α → ℝ) (l : List α) (a : ℝ × ℝ × ℝ) :
    l.foldl (fun acc d => (acc.1 + f1 d, acc.2.1 + f2 d, acc.2.2 + f3 d)) a
      = (a.1 + (l.map f1).sum, a.2.1 + (l.map f2).sum, a.2.2 + (l.map f3).sum) := by
  induction l generalizing a with
  | nil => simp
  | cons x xs ih =>
    rw [List.foldl_cons, ih]
    simp only [List.map_cons, List.sum_cons]
    refine Prod.ext ?_ (Prod.ext ?_ ?_) <;> simp <;> ring

/-- The iteration of the source (accumulate, then update by
`(η/m)·sum`) agrees with the specification's wording (update by
`η·(sum/m)`). -/
lemma gdStep_eq_gdStepSpec (m : ℕ) (sd : List (ℝ × ℝ × ℝ)) :
    gdStep m sd = gdStepSpec m sd := by
  funext w
  have hfold := foldl_triple_sum
    (fun d => (sigmoid (w.1 * d.1 + w.2.1 * d.2.1 + w.2.2) - d.2.2) * d.1)
    (fun d => (sigmoid (w.1 * d.1 + w.2.1 * d.2.1 + w.2.2) - d.2.2) * d.2.1)
    (fun d => sigmoid (w.1 * d.1 + w.2.1 * d.2.1 + w.2.2) - d.2.2)
    sd (0, 0, 0)
  simp only [sigmoid] at hfold
  simp only [gdStep, gdStepSpec, sigmoid]
  rw [hfold]
  simp only [zero_add]
  refine Prod.ext ?_ (Prod.ext ?_ ?_) <;> simp <;> ring

set_option maxRecDepth 10000 in
/-- C3: the stored logistic-regression parameters are exactly 1000
iterations, at learning rate `0.1`, of the specification's averaged
gradient-descent step, starting from `w1 = w2 = b = 0`, over the
standardized training data in input order — a deterministic function of
the training set. -/
theorem C3_training_iterations (data : List CustomerData) (_h : data ≠ []) :
    (mkEngine data).lrWeights
      = (((gdStepSpec data.length (scaledData (calculateScaling data) data))^[1000]
            (0, 0, 0)).1,
         ((gdStepSpec data.length (scaledData (calculateScaling data) data))^[1000]
            (0, 0, 0)).2.1)
    ∧ (mkEngine data).lrBias
      = ((gdStepSpec data.length (scaledData (calculateScaling data) data))^[1000]
          (0, 0, 0)).2.2 := by
  rw [← gdStep_eq_gdStepSpec data.length (scaledData (calculateScaling data) data)]
  exact ⟨rfl, rfl⟩

/-- C3 witness: the training-iteration result instantiated on a concrete
two-record training set. -/
theorem C3_witness :
    dataOneTwo ≠ [] ∧
    ((mkEngine dataOneTwo).lrWeights
      = (((gdStepSpec dataOneTwo.length
            (scaledData (calculateScaling dataOneTwo) dataOneTwo))^[1000] (0, 0, 0)).1,
         ((gdStepSpec dataOneTwo.length
            (scaledData (calculateScaling dataOneTwo) dataOneTwo))^[1000] (0, 0, 0)).2.1)
    ∧ (mkEngine dataOneTwo).lrBias
      = ((gdStepSpec dataOneTwo.length
          (scaledData (calculateScaling dataOneTwo) dataOneTwo))^[1000] (0, 0, 0)).2.2) :=
  ⟨by simp [dataOneTwo], C3_training_iterations dataOneTwo (by simp [dataOneTwo])⟩

/-- The feature-1 column of the training data. -/
def agesOf (data : List CustomerData) : List ℝ :=
  data.map (·.Age)

/-- The feature-2 column of the training data. -/
def salariesOf (data : List CustomerData) : List ℝ :=
  data.map (·.EstimatedSalary)

/-- The feature-1 mean computed by `calculateScaling`. -/
def meanAgeOf (data : List CustomerData) : ℝ :=
  (agesOf data).sum / ((agesOf data).length : ℝ)

/-- The feature-2 mean computed by `calculateScaling`. -/
def meanSalaryOf (data : List CustomerData) : ℝ :=
  (salariesOf data).sum / ((salariesOf data).length : ℝ)

/-- The feature-1 population standard deviation computed by
`calculateScaling`, before the zero-fallback substitution. -/
def rawStdAgeOf (data : List CustomerData) : ℝ :=
  Real.sqrt (((agesOf data).map (fun x => (x - meanAgeOf data) ^ 2)).sum
    / ((agesOf data).length : ℝ))

/-- The feature-2 population standard deviation computed by
`calculateScaling`, before the zero-fallback substitution. -/
def rawStdSalaryOf (data : List CustomerData) : ℝ :=
  Real.sqrt (((salariesOf data).map (fun x => (x - meanSalaryOf data) ^ 2)).sum
    / ((salariesOf data).length : ℝ))

/-- `calculateScaling` written through the column views. -/
lemma calculateScaling_eq_views (data : List CustomerData) :
    calculateScaling data
      = ⟨(meanAgeOf data, meanSalaryOf data),
         (if rawStdAgeOf data = 0 then 1 else rawStdAgeOf data,
          if rawStdSalaryOf data = 0 then 1 else rawStdSalaryOf data)⟩ :=
  rfl

/-- Multiplying every feature-1 value by `c`: the transformation of the
KNN scaling-invariance property. -/
def scaleAgeBy (c : ℝ) (d : CustomerData) : CustomerData :=
  ⟨c * d.Age, d.EstimatedSalary, d.Purchased⟩

/-- Factoring a common multiplier out of a list sum. -/
lemma sum_map_mul_c (c : ℝ) (l : List ℝ) : (l.map fun x => c * x).sum = c * l.sum := by
  induction l with
  | nil => simp
  | cons a t ih => simp [ih, mul_add]

/-- Factoring a common multiplier out of a mapped list sum. -/
lemma sum_map_mul_comp {α : Type} (c : ℝ) (f : α → ℝ) (l : List α) :
    (l.map fun x => c * f x).sum = c * (l.map f).sum := by
  induction l with
  | nil => simp
  | cons a t ih => simp [ih, mul_add]

/-- The feature-1 column after `scaleAgeBy`. -/
lemma agesOf_map_scaleAgeBy (data : List CustomerData) (c : ℝ) :
    agesOf (data.map (scaleAgeBy c)) = (agesOf data).map fun x => c * x := by
  simp only [agesOf, List.map_map]
  rfl

/-- The feature-2 column is untouched by `scaleAgeBy`. -/
lemma salariesOf_map_scaleAgeBy (data : List CustomerData) (c : ℝ) :
    salariesOf (data.map (scaleAgeBy c)) = salariesOf data := by
  simp only [salariesOf, List.map_map]
  rfl

/-- The feature-1 mean scales with `c`. -/
lemma meanAgeOf_map_scaleAgeBy (data : List CustomerData) (c : ℝ) :
    meanAgeOf (data.map (scaleAgeBy c)) = c * meanAgeOf data := by
  simp only [meanAgeOf, agesOf_map_scaleAgeBy, sum_map_mul_c, List.length_map]
  rw [mul_div_assoc]

/-- The raw feature-1 standard deviation scales with `c ≥ 0`. -/
lemma rawStdAgeOf_map_scaleAgeBy (data : List CustomerData) (c : ℝ) (hc : 0 ≤ c) :
    rawStdAgeOf (data.map (scaleAgeBy c)) = c * rawStdAgeOf data := by
  simp only [rawStdAgeOf, agesOf_map_scaleAgeBy, meanAgeOf_map_scaleAgeBy, List.length_map,
    List.map_map]
  have hcomp : ((fun x => (x - c * meanAgeOf data) ^ 2) ∘ fun x => c * x)
      = fun x => c ^ 2 * ((x - meanAgeOf data) ^ 2) := by
    funext x
    simp only [Function.comp]
    ring
  rw [hcomp, sum_map_mul_comp (c ^ 2) (fun x => (x - meanAgeOf data) ^ 2) (agesOf data),
    mul_div_assoc, Real.sqrt_mul (sq_nonneg c), Real.sqrt_sq hc]

/-- The feature-2 mean is untouched by `scaleAgeBy`. -/
lemma meanSalaryOf_map_scaleAgeBy (data : List CustomerData) (c : ℝ) :
    meanSalaryOf (data.map (scaleAgeBy c)) = meanSalaryOf data := by
  simp only [meanSalaryOf, salariesOf_map_scaleAgeBy]

/-- The raw feature-2 standard deviation is untouched by `scaleAgeBy`. -/
lemma rawStdSalaryOf_map_scaleAgeBy (data : List CustomerData) (c : ℝ) :
    rawStdSalaryOf (data.map (scaleAgeBy c)) = rawStdSalaryOf data := by
  simp only [rawStdSalaryOf, salariesOf_map_scaleAgeBy, meanSalaryOf_map_scaleAgeBy]

/-- When the raw feature-1 standard deviation is zero, every feature-1
value equals the feature-1 mean. -/
lemma age_eq_mean_of_rawStd_zero (data : List CustomerData) (h : rawStdAgeOf data = 0) :
    ∀ d ∈ data, d.Age = meanAgeOf data := by
  intro d hd
  have hlenpos : 0 < (agesOf data).length := by
    simp only [agesOf, List.length_map]
    exact List.length_pos.mpr (by rintro rfl; exact (List.not_mem_nil d) hd)
  have hlen : ((agesOf data).length : ℝ) ≠ 0 := by
    exact_mod_cast hlenpos.ne'
  have hterms : ∀ y ∈ (agesOf data).map (fun x => (x - meanAgeOf data) ^ 2), 0 ≤ y := by
    intro y hy
    rcases List.mem_map.mp hy with ⟨x, _, rfl⟩
    exact sq_nonneg _
  have hquot : ((agesOf data).map (fun x => (x - meanAgeOf data) ^ 2)).sum
      / ((agesOf data).length : ℝ) = 0 := by
    have hnn : 0 ≤ ((agesOf data).map (fun x => (x - meanAgeOf data) ^ 2)).sum
        / ((agesOf data).length : ℝ) := by
      have := List.sum_nonneg hterms
      positivity
    exact (Real.sqrt_eq_zero hnn).mp h
  have hsum : ((agesOf data).map (fun x => (x - meanAgeOf data) ^ 2)).sum = 0 := by
    rcases div_eq_zero_iff.mp hquot with h1 | h1
    · exact h1
    · exact absurd h1 hlen
  have hmemsq : (d.Age - meanAgeOf data) ^ 2
      ∈ (agesOf data).map (fun x => (x - meanAgeOf data) ^ 2) :=
    List.mem_map.mpr ⟨d.Age, List.mem_map.mpr ⟨d, hd, rfl⟩, rfl⟩
  have hle : (d.Age - meanAgeOf data) ^ 2 ≤ 0 :=
    hsum ▸ List.single_le_sum hterms _ hmemsq
  have hzero : (d.Age - meanAgeOf data) ^ 2 = 0 := le_antisymm hle (sq_nonneg _)
  have hdiff : d.Age - meanAgeOf data = 0 := sq_eq_zero_iff.mp hzero
  linarith

/-- Inserting into a sorted list commutes with mapping when the map
preserves the comparison on the inserted element against every list
element. -/
lemma orderedInsert_map_congr {α β : Type} (f : α → β) (r : α → α → Prop)
    (s : β → β → Prop) [DecidableRel r] [DecidableRel s] (a : α) (t : List α)
    (h : ∀ b ∈ t, (s (f a) (f b) ↔ r a b)) :
    List.orderedInsert s (f a) (t.map f) = (List.orderedInsert r a t).map f := by
  induction t with
  | nil => rfl
  | cons b t ih =>
    simp only [List.map_cons, List.orderedInsert]
    by_cases hr : r a b
    · rw [if_pos ((h b (List.mem_cons_self b t)).mpr hr), if_pos hr, List.map_cons,
        List.map_cons]
    · rw [if_neg (fun hs => hr ((h b (List.mem_cons_self b t)).mp hs)), if_neg hr,
        List.map_cons, ih fun x hx => h x (List.mem_cons_of_mem _ hx)]

/-- The stable insertion sort commutes with mapping when the map
preserves all pairwise comparisons between list elements. -/
lemma insertionSort_map_congr {α β : Type} (f : α → β) (r : α → α → Prop)
    (s : β → β → Prop) [DecidableRel r] [DecidableRel s] (l : List α)
    (h : ∀ a ∈ l, ∀ b ∈ l, (s (f a) (f b) ↔ r a b)) :
    List.insertionSort s (l.map f) = (List.insertionSort r l).map f := by
  induction l with
  | nil => rfl
  | cons a t ih =>
    simp only [List.map_cons, List.insertionSort]
    rw [ih fun x hx y hy =>
      h x (List.mem_cons_of_mem _ hx) y (List.mem_cons_of_mem _ hy)]
    exact orderedInsert_map_congr f r s a (List.insertionSort r t) fun b hb =>
      h a (List.mem_cons_self a t) b
        (List.mem_cons_of_mem _ ((List.perm_insertionSort r t).mem_iff.mp hb))

/-- When feature 1 has nonzero raw standard deviation, rescaling feature 1
by `c > 0` leaves every standardized distance unchanged: the `c` in the
value, the mean, and the standard deviation cancels. -/
lemma distTo_scaleAgeBy_eq (data : List CustomerData) (age salary c : ℝ) (hc : 0 < c)
    (hraw : rawStdAgeOf data ≠ 0) (d : CustomerData) :
    distTo (mkEngine (data.map (scaleAgeBy c))) (c * age) salary (scaleAgeBy c d)
      = distTo (mkEngine data) age salary d := by
  have hsp : (mkEngine (data.map (scaleAgeBy c))).scaleParams
      = calculateScaling (data.map (scaleAgeBy c)) := rfl
  have hsp2 : (mkEngine data).scaleParams = calculateScaling data := rfl
  simp only [distTo, scale, hsp, hsp2, calculateScaling_eq_views, scaleAgeBy,
    meanAgeOf_map_scaleAgeBy, meanSalaryOf_map_scaleAgeBy,
    rawStdAgeOf_map_scaleAgeBy data c hc.le, rawStdSalaryOf_map_scaleAgeBy]
  rw [if_neg (mul_ne_zero hc.ne' hraw), if_neg hraw]
  have hdiv : ∀ u v : ℝ, (c * u - c * v) / (c * rawStdAgeOf data)
      = (u - v) / rawStdAgeOf data := by
    intro u v
    rw [← mul_sub, mul_div_mul_left _ _ hc.ne']
  rw [hdiv, hdiv]

/-- When feature 1 has zero raw standard deviation (a constant feature),
rescaling feature 1 by `c > 0` changes every distance by the same
constant contribution under the square root, so pairwise distance
comparisons between training records are preserved. -/
lemma distTo_key_iff_of_rawStd_zero (data : List CustomerData) (age salary c : ℝ)
    (hc : 0 ≤ c) (hraw : rawStdAgeOf data = 0) (a : CustomerData) (ha : a ∈ data)
    (b : CustomerData) (hb : b ∈ data) :
    (distTo (mkEngine (data.map (scaleAgeBy c))) (c * age) salary (scaleAgeBy c a)
      ≤ distTo (mkEngine (data.map (scaleAgeBy c))) (c * age) salary (scaleAgeBy c b))
    ↔ (distTo (mkEngine data) age salary a ≤ distTo (mkEngine data) age salary b) := by
  have haA := age_eq_mean_of_rawStd_zero data hraw a ha
  have hbA := age_eq_mean_of_rawStd_zero data hraw b hb
  have hsp : (mkEngine (data.map (scaleAgeBy c))).scaleParams
      = calculateScaling (data.map (scaleAgeBy c)) := rfl
  have hsp2 : (mkEngine data).scaleParams = calculateScaling data := rfl
  have hraw2 : rawStdAgeOf (data.map (scaleAgeBy c)) = 0 := by
    rw [rawStdAgeOf_map_scaleAgeBy data c hc, hraw, mul_zero]
  simp only [distTo, scale, hsp, hsp2, calculateScaling_eq_views, scaleAgeBy,
    meanAgeOf_map_scaleAgeBy, meanSalaryOf_map_scaleAgeBy,
    rawStdSalaryOf_map_scaleAgeBy, hraw2, hraw, if_pos rfl]
  rw [haA, hbA]
  simp only [if_true, div_one, sub_self, zero_div, sub_zero]
  rw [Real.sqrt_le_sqrt_iff (by positivity), Real.sqrt_le_sqrt_iff (by positivity),
    add_le_add_iff_left, add_le_add_iff_left]

/-- Rescaling feature 1 by `c > 0` preserves every pairwise distance
comparison between training records. -/
lemma distTo_key_iff (data : List CustomerData) (age salary c : ℝ) (hc : 0 < c)
    (a : CustomerData) (ha : a ∈ data) (b : CustomerData) (hb : b ∈ data) :
    (distTo (mkEngine (data.map (scaleAgeBy c))) (c * age) salary (scaleAgeBy c a)
      ≤ distTo (mkEngine (data.map (scaleAgeBy c))) (c * age) salary (scaleAgeBy c b))
    ↔ (distTo (mkEngine data) age salary a ≤ distTo (mkEngine data) age salary b) := by
  by_cases hraw : rawStdAgeOf data = 0
  · exact distTo_key_iff_of_rawStd_zero data age salary c hc.le hraw a ha b hb
  · rw [distTo_scaleAgeBy_eq data age salary c hc hraw a,
      distTo_scaleAgeBy_eq data age salary c hc hraw b]

/-- Rescaling feature 1 by `c > 0` maps the sorted neighbor list of the
original problem onto the sorted neighbor list of the rescaled problem,
record for record. -/
lemma neighborList_scaleAgeBy (data : List CustomerData) (age salary c : ℝ) (hc : 0 < c) :
    neighborList (mkEngine (data.map (scaleAgeBy c))) (c * age) salary
      = (neighborList (mkEngine data) age salary).map (scaleAgeBy c) := by
  have h1 : (mkEngine (data.map (scaleAgeBy c))).trainingData = data.map (scaleAgeBy c) := rfl
  have h2 : (mkEngine data).trainingData = data := rfl
  unfold neighborList
  rw [h1, h2]
  exact insertionSort_map_congr (scaleAgeBy c) _ _ data fun a ha b hb =>
    distTo_key_iff data age salary c hc a ha b hb

/-- C8: multiplying every training feature-1 value and the query feature-1
value by the same positive constant leaves the selected k nearest
neighbors unchanged (record for record, transported by the rescaling):
standardization removes scale. -/
theorem C8_knn_scaling_invariance (data : List CustomerData) (age salary c : ℝ) (k : ℕ)
    (hc : 0 < c) :
    (neighborList (mkEngine (data.map (scaleAgeBy c))) (c * age) salary).take k
      = ((neighborList (mkEngine data) age salary).take k).map (scaleAgeBy c) := by
  rw [neighborList_scaleAgeBy data age salary c hc]
  exact (List.map_take _ _ _).symm

/-- C8 witness: the scaling-invariance result instantiated at a concrete
training set, query, `c = 2`, and `k = 1`. -/
theorem C8_witness :
    (0 : ℝ) < 2
    ∧ (neighborList (mkEngine (dataOneTwo.map (scaleAgeBy 2))) (2 * 3) 4).take 1
      = ((neighborList (mkEngine dataOneTwo) 3 4).take 1).map (scaleAgeBy 2) :=
  ⟨by norm_num, C8_knn_scaling_invariance dataOneTwo 3 4 2 1 (by norm_num)⟩

/-- The sum of a constant map. -/
lemma sum_map_const {α : Type} (l : List α) (k : ℝ) :
    (l.map fun _ => k).sum = (l.length : ℝ) * k := by
  induction l with
  | nil => simp
  | cons a t ih =>
    simp [ih]
    ring

/-- A mapped sum of centered-and-scaled values. -/
lemma sum_map_sub_div (l : List ℝ) (m s : ℝ) :
    (l.map fun x => (x - m) / s).sum = (l.sum - (l.length : ℝ) * m) / s := by
  induction l with
  | nil => simp
  | cons a t ih =>
    simp only [List.map_cons, List.sum_cons, List.length_cons, ih]
    push_cast
    ring

/-- Centering a list at its own mean gives sum zero. -/
lemma sum_centered_eq_zero (l : List ℝ) (s : ℝ) (hne : l ≠ []) :
    (l.map fun x => (x - l.sum / (l.length : ℝ)) / s).sum = 0 := by
  have hn : (l.length : ℝ) ≠ 0 := by
    exact_mod_cast (List.length_pos.mpr hne).ne'
  rw [sum_map_sub_div, mul_div_cancel₀ _ hn, sub_self, zero_div]

/-- When every prediction matches its label, training-set accuracy is 1. -/
lemma getAccuracy_eq_one (e : MLEngine) (alg : Algorithm) (hne : e.trainingData ≠ [])
    (h : ∀ d ∈ e.trainingData, predLabel e alg d = d.Purchased) :
    getAccuracy e alg = 1 := by
  unfold getAccuracy
  rw [List.filter_eq_self.mpr fun d hd => decide_eq_true (h d hd)]
  exact div_self (by exact_mod_cast (List.length_pos.mpr hne).ne')

/-- A one-record training set whose only label is `1`. -/
def dataOne : List CustomerData :=
  [⟨0, 0, 1⟩]

/-- The engine built from the one-record training set. -/
def engOne : MLEngine :=
  mkEngine dataOne

/-- On the one-record training set, the sorted neighbor list for the
query at the record itself is the training set. -/
lemma engOne_neighborList : neighborList engOne 0 0 = dataOne :=
  rfl

/-- On the one-record training set the single neighbor has label `1`, so
`purchasedCount` with `k = 5` is `1`. -/
lemma engOne_purchasedCount : purchasedCount engOne 0 0 5 = 1 := by
  simp only [purchasedCount, engOne_neighborList, dataOne]
  norm_num

/-- On the one-record training set, KNN with the default `k = 5` predicts
`false`: `1 > 5/2` fails even though the only record has label `1`. -/
lemma engOne_predictKNN_false : (predictKNN engOne 0 0 5).purchased = false := by
  show decide ((purchasedCount engOne 0 0 5 : ℝ) > ((5 : ℕ) : ℝ) / 2) = false
  rw [engOne_purchasedCount]
  norm_num

/-- C7 counterexample: a non-empty training set in which every record has
label `1`, yet `accuracy('knn')` is `0`, not `1`: with a single record,
`purchasedCount = 1` is not greater than `5/2`, so the KNN prediction
contradicts every label. -/
theorem C7_counterexample :
    (∀ d ∈ dataOne, d.Purchased = 1) ∧ dataOne ≠ []
    ∧ getAccuracy engOne Algorithm.KNN = 0
    ∧ getAccuracy engOne Algorithm.KNN ≠ 1 := by
  have hpl : predLabel engOne Algorithm.KNN ⟨0, 0, 1⟩ = 0 := by
    simp only [predLabel, engOne_predictKNN_false]
    simp
  have hfilter : (engOne.trainingData.filter fun d =>
      decide (predLabel engOne Algorithm.KNN d = d.Purchased)) = [] := by
    have htd : engOne.trainingData = dataOne := rfl
    rw [htd]
    simp only [dataOne, List.filter, hpl]
    norm_num
  have hacc : getAccuracy engOne Algorithm.KNN = 0 := by
    unfold getAccuracy
    rw [hfilter]
    simp
  refine ⟨?_, by simp [dataOne], hacc, by rw [hacc]; norm_num⟩
  intro d hd
  simp only [dataOne, List.mem_singleton] at hd
  rw [hd]

/-- Every triple of the standardized training data carries the label of
its source record. -/
lemma scaledData_label (p : ScaleParams) (data : List CustomerData)
    (hlab : ∀ d ∈ data, d.Purchased = 1) :
    ∀ t ∈ scaledData p data, t.2.2 = 1 := by
  intro t ht
  rcases List.mem_map.mp ht with ⟨d, hd, rfl⟩
  exact hlab d hd

/-- Centering any projected column at its own mean gives sum zero. -/
lemma sum_centered_proj {α : Type} (l : List α) (f : α → ℝ) (s : ℝ) (hne : l ≠ []) :
    (l.map fun a => (f a - (l.map f).sum / ((l.map f).length : ℝ)) / s).sum = 0 := by
  have h := sum_centered_eq_zero (l.map f) s (by simpa using hne)
  rw [List.map_map] at h
  exact h

/-- The standardized feature-1 column sums to zero. -/
lemma scaledData_sum_x1 (data : List CustomerData) (hne : data ≠ []) :
    ((scaledData (calculateScaling data) data).map (·.1)).sum = 0 := by
  unfold scaledData
  rw [List.map_map]
  exact sum_centered_proj data (·.Age) (calculateScaling data).std.1 hne

/-- The standardized feature-2 column sums to zero. -/
lemma scaledData_sum_x2 (data : List CustomerData) (hne : data ≠ []) :
    ((scaledData (calculateScaling data) data).map (·.2.1)).sum = 0 := by
  unfold scaledData
  rw [List.map_map]
  exact sum_centered_proj data (·.EstimatedSalary) (calculateScaling data).std.2 hne

/-- With at least three records, all labeled `1`, the KNN prediction at
each record's own features is `true` (at least three of the at most five
neighbors are positive), matching the label. -/
lemma predLabel_knn_all_ones (data : List CustomerData) (h3 : 3 ≤ data.length)
    (hlab : ∀ d ∈ data, d.Purchased = 1) (d : CustomerData) (hd : d ∈ data) :
    predLabel (mkEngine data) Algorithm.KNN d = d.Purchased := by
  have htd : (mkEngine data).trainingData = data := rfl
  have hmemnl : ∀ x ∈ neighborList (mkEngine data) d.Age d.EstimatedSalary, x ∈ data := by
    intro x hx
    have hperm := List.perm_insertionSort
      (fun a b => distTo (mkEngine data) d.Age d.EstimatedSalary a
        ≤ distTo (mkEngine data) d.Age d.EstimatedSalary b)
      (mkEngine data).trainingData
    exact htd ▸ hperm.mem_iff.mp hx
  have hnllen : (neighborList (mkEngine data) d.Age d.EstimatedSalary).length
      = data.length := by
    unfold neighborList
    rw [(List.perm_insertionSort _ _).length_eq, htd]
  have hpc : purchasedCount (mkEngine data) d.Age d.EstimatedSalary 5
      = min 5 data.length := by
    unfold purchasedCount
    rw [List.filter_eq_self.mpr fun x hx =>
      decide_eq_true (hlab x (hmemnl x (List.take_subset _ _ hx)))]
    rw [List.length_take, hnllen]
  have hgt : (purchasedCount (mkEngine data) d.Age d.EstimatedSalary 5 : ℝ)
      > ((5 : ℕ) : ℝ) / 2 := by
    rw [hpc]
    have h35 : 3 ≤ min 5 data.length := le_min (by norm_num) h3
    have h35R : (3 : ℝ) ≤ ((min 5 data.length : ℕ) : ℝ) := by exact_mod_cast h35
    push_cast at h35R ⊢
    linarith
  have hpur : (predictKNN (mkEngine data) d.Age d.EstimatedSalary 5).purchased = true := by
    show decide ((purchasedCount (mkEngine data) d.Age d.EstimatedSalary 5 : ℝ)
      > ((5 : ℕ) : ℝ) / 2) = true
    exact decide_eq_true hgt
  simp only [predLabel, hpur, if_true]
  exact (hlab d hd).symm

/-- Closed form of one gradient-descent iteration: the accumulating fold
written as mapped sums. -/
lemma gdStep_eq_sums (m : ℕ) (sd : List (ℝ × ℝ × ℝ)) (w : ℝ × ℝ × ℝ) :
    gdStep m sd w
      = (w.1 - (0.1 / m) * (sd.map fun d =>
            (1 / (1 + Real.exp (-(w.1 * d.1 + w.2.1 * d.2.1 + w.2.2))) - d.2.2) * d.1).sum,
         w.2.1 - (0.1 / m) * (sd.map fun d =>
            (1 / (1 + Real.exp (-(w.1 * d.1 + w.2.1 * d.2.1 + w.2.2))) - d.2.2) * d.2.1).sum,
         w.2.2 - (0.1 / m) * (sd.map fun d =>
            1 / (1 + Real.exp (-(w.1 * d.1 + w.2.1 * d.2.1 + w.2.2))) - d.2.2).sum) := by
  have hfold := foldl_triple_sum
    (fun d : ℝ × ℝ × ℝ =>
      (1 / (1 + Real.exp (-(w.1 * d.1 + w.2.1 * d.2.1 + w.2.2))) - d.2.2) * d.1)
    (fun d : ℝ × ℝ × ℝ =>
      (1 / (1 + Real.exp (-(w.1 * d.1 + w.2.1 * d.2.1 + w.2.2))) - d.2.2) * d.2.1)
    (fun d : ℝ × ℝ × ℝ =>
      1 / (1 + Real.exp (-(w.1 * d.1 + w.2.1 * d.2.1 + w.2.2))) - d.2.2)
    sd (0, 0, 0)
  simp only [gdStep]
  rw [hfold]
  simp [zero_add]

/-- With all labels `1` and both weights zero, one gradient-descent
iteration keeps the weights at zero (the standardized columns sum to
zero) and increases the bias by `0.1·(1 − sigmoid b)`. -/
lemma gdStep_all_ones (data : List CustomerData) (hne : data ≠ [])
    (hlab : ∀ d ∈ data, d.Purchased = 1) (b : ℝ) :
    gdStep data.length (scaledData (calculateScaling data) data) (0, 0, b)
      = (0, 0, b + 0.1 * (1 - 1 / (1 + Real.exp (-b)))) := by
  have hn : (data.length : ℝ) ≠ 0 := by
    exact_mod_cast (List.length_pos.mpr hne).ne'
  rw [gdStep_eq_sums]
  simp only [zero_mul, zero_add]
  have hm1 : ((scaledData (calculateScaling data) data).map fun d =>
        (1 / (1 + Real.exp (-b)) - d.2.2) * d.1)
      = (scaledData (calculateScaling data) data).map fun d =>
        (1 / (1 + Real.exp (-b)) - 1) * d.1 :=
    List.map_congr_left fun d hd => by
      rw [scaledData_label (calculateScaling data) data hlab d hd]
  have hm2 : ((scaledData (calculateScaling data) data).map fun d =>
        (1 / (1 + Real.exp (-b)) - d.2.2) * d.2.1)
      = (scaledData (calculateScaling data) data).map fun d =>
        (1 / (1 + Real.exp (-b)) - 1) * d.2.1 :=
    List.map_congr_left fun d hd => by
      rw [scaledData_label (calculateScaling data) data hlab d hd]
  have hm3 : ((scaledData (calculateScaling data) data).map fun d =>
        1 / (1 + Real.exp (-b)) - d.2.2)
      = (scaledData (calculateScaling data) data).map fun _ =>
        1 / (1 + Real.exp (-b)) - 1 :=
    List.map_congr_left fun d hd => by
      rw [scaledData_label (calculateScaling data) data hlab d hd]
  have hs1 : ((scaledData (calculateScaling data) data).map fun d =>
        (1 / (1 + Real.exp (-b)) - 1) * d.1).sum = 0 := by
    rw [sum_map_mul_comp (1 / (1 + Real.exp (-b)) - 1) (fun d => d.1)
      (scaledData (calculateScaling data) data), scaledData_sum_x1 data hne, mul_zero]
  have hs2 : ((scaledData (calculateScaling data) data).map fun d =>
        (1 / (1 + Real.exp (-b)) - 1) * d.2.1).sum = 0 := by
    rw [sum_map_mul_comp (1 / (1 + Real.exp (-b)) - 1) (fun d => d.2.1)
      (scaledData (calculateScaling data) data), scaledData_sum_x2 data hne, mul_zero]
  rw [hm1, hm2, hm3, hs1, hs2, sum_map_const]
  have hlen : ((scaledData (calculateScaling data) data).length : ℝ)
      = (data.length : ℝ) := by
    simp [scaledData]
  rw [hlen]
  refine Prod.ext ?_ (Prod.ext ?_ ?_) <;> simp
  field_simp
  ring

/-- With all labels `1`, every gradient-descent iterate keeps both
weights at zero and a nonnegative bias, strictly positive from the first
iteration on. -/
lemma iterate_all_ones (data : List CustomerData) (hne : data ≠ [])
    (hlab : ∀ d ∈ data, d.Purchased = 1) (t : ℕ) :
    ∃ b : ℝ,
      (gdStep data.length (scaledData (calculateScaling data) data))^[t] (0, 0, 0)
        = (0, 0, b) ∧ 0 ≤ b ∧ (1 ≤ t → 0 < b) := by
  induction t with
  | zero => exact ⟨0, rfl, le_refl 0, by omega⟩
  | succ t ih =>
    obtain ⟨b, hb, hb0, _⟩ := ih
    have hq : 1 / (1 + Real.exp (-b)) < 1 := by
      have hpos := Real.exp_pos (-b)
      rw [div_lt_one (by linarith)]
      linarith
    have hqpos : 0 < 0.1 * (1 - 1 / (1 + Real.exp (-b))) := by
      have h0 : 0 < 1 - 1 / (1 + Real.exp (-b)) := by linarith
      linarith
    refine ⟨b + 0.1 * (1 - 1 / (1 + Real.exp (-b))), ?_, by linarith, fun _ => by linarith⟩
    rw [Function.iterate_succ_apply', hb, gdStep_all_ones data hne hlab b]

set_option maxRecDepth 10000 in
/-- With all labels `1`, the logistic-regression prediction at each
record's own features is `true` (the trained bias is positive and the
weights are zero), matching the label. -/
lemma predLabel_lr_all_ones (data : List CustomerData) (hne : data ≠ [])
    (hlab : ∀ d ∈ data, d.Purchased = 1) (d : CustomerData) (hd : d ∈ data) :
    predLabel (mkEngine data) Algorithm.LR d = d.Purchased := by
  obtain ⟨b, hb, _, hbpos⟩ := iterate_all_ones data hne hlab 1000
  have hbgt : 0 < b := hbpos (by norm_num)
  have hw : (mkEngine data).lrWeights
      = (((gdStep data.length (scaledData (calculateScaling data) data))^[1000]
          (0, 0, 0)).1,
         ((gdStep data.length (scaledData (calculateScaling data) data))^[1000]
          (0, 0, 0)).2.1) := rfl
  have hbias : (mkEngine data).lrBias
      = ((gdStep data.length (scaledData (calculateScaling data) data))^[1000]
          (0, 0, 0)).2.2 := rfl
  rw [hb] at hw hbias
  have hpur : (predictLogisticRegression (mkEngine data) d.Age
      d.EstimatedSalary).purchased = true := by
    show decide (1 / (1 + Real.exp (-((mkEngine data).lrWeights.1
      * (scale (mkEngine data).scaleParams d.Age d.EstimatedSalary).1
      + (mkEngine data).lrWeights.2
      * (scale (mkEngine data).scaleParams d.Age d.EstimatedSalary).2
      + (mkEngine data).lrBias))) ≥ 0.5) = true
    apply decide_eq_true
    rw [hw, hbias]
    simp only [zero_mul, zero_add]
    have hexp : Real.exp (-b) < 1 := by
      rw [Real.exp_lt_one_iff]
      linarith
    have hpos := Real.exp_pos (-b)
    rw [ge_iff_le, le_div_iff₀ (by linarith)]
    linarith
  simp only [predLabel, hpur, if_true]
  exact (hlab d hd).symm

/-- C7 (amended): for every training set with at least three records, all
labeled `1`, both training-set accuracies equal `1`.  (With one or two
records the KNN accuracy is `0` instead, since `purchasedCount ≤ 2` never
exceeds the fixed threshold `5/2`; the logistic-regression accuracy is
`1` for every non-empty all-ones training set.) -/
theorem C7_amended (data : List CustomerData) (h3 : 3 ≤ data.length)
    (hlab : ∀ d ∈ data, d.Purchased = 1) :
    getAccuracy (mkEngine data) Algorithm.KNN = 1
    ∧ getAccuracy (mkEngine data) Algorithm.LR = 1 := by
  have hne : data ≠ [] := by
    rintro rfl
    simp at h3
  constructor
  · exact getAccuracy_eq_one (mkEngine data) Algorithm.KNN hne fun d hd =>
      predLabel_knn_all_ones data h3 hlab d hd
  · exact getAccuracy_eq_one (mkEngine data) Algorithm.LR hne fun d hd =>
      predLabel_lr_all_ones data hne hlab d hd

/-- A three-record training set, every record labeled `1`. -/
def dataThree : List CustomerData :=
  [⟨1, 10, 1⟩, ⟨2, 20, 1⟩, ⟨3, 30, 1⟩]

/-- C7 witness: both accuracies are `1` on a concrete three-record
all-ones training set. -/
theorem C7_witness :
    3 ≤ dataThree.length ∧ (∀ d ∈ dataThree, d.Purchased = 1)
    ∧ getAccuracy (mkEngine dataThree) Algorithm.KNN = 1
    ∧ getAccuracy (mkEngine dataThree) Algorithm.LR = 1 := by
  have h3 : 3 ≤ dataThree.length := by simp [dataThree]
  have hlab : ∀ d ∈ dataThree, d.Purchased = 1 := by
    intro d hd
    simp only [dataThree, List.mem_cons, List.mem_singleton] at hd
    rcases hd with rfl | rfl | rfl | h
    · rfl
    · rfl
    · rfl
    · simp at h
  obtain ⟨h1, h2⟩ := C7_amended dataThree h3 hlab
  exact ⟨h3, hlab, h1, h2⟩

/-- C10: `getAccuracy` for KNN is exactly the `k`-parametric training-set
accuracy evaluated at the default `k = 5`; the `k` used for the accuracy
computation is fixed to `5` by the code. -/
theorem C10_accuracy_knn_default_k (e : MLEngine) :
    getAccuracy e Algorithm.KNN = knnAccuracyAt e 5 :=
  rfl

end
